import Mathlib

/-!
Shallow embedding of the JSON ⇄ Gettext PO converters
(`wei18nToPo`, `wei18nToJson`, `rainbeamToPo`, `rainbeamToJson`).

JavaScript objects are modelled as insertion-ordered association lists
`List (String × α)`; property read is first-match lookup (`recordGet`) and
property write is replace-in-place-or-append (`recordSet`), which coincides
with JavaScript object semantics on the duplicate-free lists that actually
arise from parsed JSON.  A JavaScript array that may contain `undefined`
(the `msgstr` arrays) is modelled as `List (Option String)`, with
`Array.prototype.join("")` rendering `undefined` as the empty string.
JavaScript truthiness tests on optional strings (`if (entry.description)`,
`if (!comments.translator)`) are modelled by `truthyStr`.  The converters
return the in-memory document values handed to the external serializers
(`po.compile` / `JSON.stringify`), which the specification treats as an
external library with a fixed data shape.
-/

/-- First-match property lookup on a JavaScript-object-as-association-list. -/
def recordGet {α : Type} : List (String × α) → String → Option α
  | [], _ => none
  | p :: r, k => if p.1 = k then some p.2 else recordGet r k

/-- Property write on a JavaScript object: replace the value in place when the
key is present, otherwise append the new binding at the end. -/
def recordSet {α : Type} : List (String × α) → String → α → List (String × α)
  | [], k, v => [(k, v)]
  | p :: r, k, v => if p.1 = k then (k, v) :: r else p :: recordSet r k v

/-- JavaScript truthiness of an optional string: `undefined` and `""` are
falsy, every other string is truthy. -/
def truthyStr : Option String → Bool
  | none => false
  | some s => decide (s ≠ "")

/-- `array.join("")` on a JavaScript array that may hold `undefined` entries:
`undefined` contributes the empty string. -/
def msgstrJoin (l : List (Option String)) : String :=
  String.join (l.map (fun o => o.getD ""))

/-- One placeholder of a WebExtensions message entry. -/
structure Wei18nPlaceholder where
  content : String
  «example» : Option String := none
deriving Repr, DecidableEq

/-- One entry of a WebExtensions `messages.json` map. -/
structure Wei18nEntry where
  message : String
  description : Option String := none
  placeholders : Option (List (String × Wei18nPlaceholder)) := none
deriving Repr, DecidableEq

/-- A WebExtensions i18n message map: ordered object keyed by message name. -/
abbrev Wei18n := List (String × Wei18nEntry)

/-- A Rainbeam translation JSON file. -/
structure RainbeamI18nData where
  name : String
  version : String
  data : List (String × String)
deriving Repr, DecidableEq

/-- The `comments` object of a gettext-parser PO entry. -/
structure GettextComments where
  translator : Option String := none
  reference : Option String := none
  extracted : Option String := none
  flag : Option String := none
  previous : Option String := none
deriving Repr, DecidableEq

/-- One gettext-parser PO entry.  `msgstr` elements are `Option String`
because the converter can store a missing JavaScript lookup (`undefined`)
in the array. -/
structure GettextParserDataEntry where
  msgctxt : Option String := none
  msgid : String
  msgid_plural : Option String := none
  msgstr : List (Option String) := []
  comments : Option GettextComments := none
  obsolete : Option Bool := none
deriving Repr, DecidableEq

/-- A gettext-parser PO document: charset, headers, and a two-level mapping
context → (msgid → entry). -/
structure GettextParserData where
  charset : String
  headers : List (String × String)
  translations : List (String × List (String × GettextParserDataEntry))
deriving Repr, DecidableEq

/-- The fixed header object both converters construct, with the
caller-supplied locale as `Language`. -/
def fixedHeaders (locale : String) : List (String × String) :=
  [("Project-Id-Version", "placeholder"),
   ("mime-version", "1.0"),
   ("Content-Type", "text/plain; charset=utf-8"),
   ("Content-Transfer-Encoding", "8bit"),
   ("Plural-Forms", "nplurals=1; plural=0"),
   ("Language", locale)]

/-- The body of the `referenceTexts` loop of `wei18nToPo`: if the reference
map contains the key, ensure `comments` exists, then either set
`comments.translator` (when it is falsy: absent or empty) or append the
reference message after a blank line. -/
def addReference (key : String) (re : GettextParserDataEntry)
    (reference : Wei18n) : GettextParserDataEntry :=
  match recordGet reference key with
  | none => re
  | some refEntry =>
    let comments := re.comments.getD {}
    if truthyStr comments.translator then
      { re with comments := some { comments with
          translator := some ((comments.translator.getD "") ++ "\n\n" ++ refEntry.message) } }
    else
      { re with comments := some { comments with translator := some refEntry.message } }

/-- The PO entry `wei18nToPo` builds for one key/entry pair: context `""`,
`msgid` the key, `msgstr` the single message; a truthy (non-empty)
description goes to `comments.extracted`; then every reference map is folded
in with `addReference`. -/
def wei18nMkEntry (referenceTexts : Option (List Wei18n)) (key : String)
    (entry : Wei18nEntry) : GettextParserDataEntry :=
  let resultEntry : GettextParserDataEntry :=
    { msgctxt := some "", msgid := key, msgstr := [some entry.message] }
  let resultEntry :=
    if truthyStr entry.description then
      { resultEntry with comments := some { extracted := entry.description } }
    else resultEntry
  match referenceTexts with
  | none => resultEntry
  | some refs => refs.foldl (addReference key) resultEntry

/-- `wei18nToPo`: convert a WebExtensions map to the PO document handed to
`po.compile`.  One entry per key, all under the single context `""`. -/
def wei18nToPo (json : Wei18n) (locale : String)
    (referenceTexts : Option (List Wei18n)) : GettextParserData :=
  { charset := "utf-8",
    headers := fixedHeaders locale,
    translations :=
      [("", json.foldl
        (fun translations kv => recordSet translations kv.1 (wei18nMkEntry referenceTexts kv.1 kv.2))
        [])] }

/-- `wei18nToJson`: convert a PO document back to a WebExtensions map.
Iterates the entries under context `""` (JavaScript throws when that context
is absent, modelled as `none`), skips the header pseudo-entry with key `""`,
and emits `message = msgstr.join("")` and `description = comments?.extracted`. -/
def wei18nToJson (poValue : GettextParserData) : Option Wei18n :=
  match recordGet poValue.translations "" with
  | none => none
  | some objects =>
    some (objects.foldl
      (fun res kv =>
        if kv.1 = "" then res
        else recordSet res kv.1
          { message := msgstrJoin kv.2.msgstr,
            description := kv.2.comments.bind GettextComments.extracted })
      [])

/-- The PO entry `rainbeamToPo` builds for one key/text pair of the iterated
record.  With a source, `msgid` is the source display text looked up by key
(the lookup always succeeds because the key is drawn from `source.data`
itself; `getD ""` closes the impossible branch) and `msgstr` pre-fills the
target lookup, which may be a missing (`undefined`) value. -/
def rainbeamMkEntry (json : RainbeamI18nData) (source : Option RainbeamI18nData)
    (key text : String) : GettextParserDataEntry :=
  { msgctxt := some key,
    msgid :=
      match source with
      | some s => (recordGet s.data key).getD ""
      | none => text,
    msgstr :=
      match source with
      | some _ => [recordGet json.data key]
      | none => [] }

/-- `rainbeamToPo`: convert a Rainbeam file to the PO document handed to
`po.compile`.  Iterates `(source ?? json).data`; entries are stored under the
single outer context `""`, keyed by the Rainbeam key. -/
def rainbeamToPo (json : RainbeamI18nData) (locale : String)
    (source : Option RainbeamI18nData) : GettextParserData :=
  { charset := "utf-8",
    headers := fixedHeaders locale,
    translations :=
      [("", ((source.getD json).data).foldl
        (fun translations kv => recordSet translations kv.1 (rainbeamMkEntry json source kv.1 kv.2))
        [])] }

/-- `rainbeamToJson`: convert a PO document to a Rainbeam file with the fixed
placeholders `name = "out"`, `version = "0.0.0"`; for every context/msgid
pair except the empty msgid, set `data[context] = msgstr.join("")`. -/
def rainbeamToJson (poValue : GettextParserData) : RainbeamI18nData :=
  { name := "out",
    version := "0.0.0",
    data := poValue.translations.foldl
      (fun res ctx => ctx.2.foldl
        (fun res kv =>
          if kv.1 = "" then res
          else recordSet res ctx.1 (msgstrJoin kv.2.msgstr))
        res)
      [] }

/-- Sequential property writes: fold `recordSet` over a list of bindings. -/
def recordSets {α : Type} (init : List (String × α)) (ps : List (String × α)) :
    List (String × α) :=
  ps.foldl (fun acc kv => recordSet acc kv.1 kv.2) init

/-- The value of the last binding for `k` in a list of sequential writes. -/
def lookupLast {α : Type} (ps : List (String × α)) (k : String) : Option α :=
  (ps.reverse.find? (fun kv => decide (kv.1 = k))).map Prod.snd

/-- The (context, joined msgstr) assignments `rainbeamToJson` performs, in
iteration order: one per entry whose record key (msgid) is non-empty. -/
def rainbeamPairs (p : GettextParserData) : List (String × String) :=
  p.translations.flatMap (fun ctx =>
    (ctx.2.filter (fun kv => decide (kv.1 ≠ ""))).map
      (fun kv => (ctx.1, msgstrJoin kv.2.msgstr)))

/-- Erase the `placeholders` field of every entry of a WebExtensions map
(the part of the input not representable in PO). -/
def erasePlaceholders (m : Wei18n) : Wei18n :=
  m.map (fun kv => (kv.1, { kv.2 with placeholders := none }))

/-- The translator comment of the entry stored under key `k` in the default
context `""` of a PO document. -/
def translatorOf (d : GettextParserData) (k : String) : Option String :=
  (recordGet ((recordGet d.translations "").getD []) k).bind
    (fun e => e.comments.bind GettextComments.translator)

/-! ### Record (JavaScript object) lemmas -/

theorem recordGet_recordSet {α : Type} (r : List (String × α)) (k k' : String) (v : α) :
    recordGet (recordSet r k v) k' = if k' = k then some v else recordGet r k' := by
  induction r with
  | nil =>
    by_cases h : k' = k
    · subst h; simp [recordSet, recordGet]
    · simp [recordSet, recordGet, h, Ne.symm h]
  | cons p r ih =>
    by_cases hp : p.1 = k
    · by_cases h : k' = k
      · subst h; simp [recordSet, recordGet, hp]
      · simp [recordSet, recordGet, hp, h, Ne.symm h]
    · by_cases h : k' = k
      · subst h; simp [recordSet, recordGet, hp, ih]
      · simp [recordSet, recordGet, hp, h, ih]

theorem recordSet_of_forall_ne {α : Type} (r : List (String × α)) (k : String) (v : α)
    (h : ∀ p ∈ r, p.1 ≠ k) : recordSet r k v = r ++ [(k, v)] := by
  induction r with
  | nil => rfl
  | cons p r ih =>
    have hp : p.1 ≠ k := h p (by simp)
    simp [recordSet, hp, ih (fun q hq => h q (by simp [hq]))]

theorem mem_recordSet {α : Type} (r : List (String × α)) (k : String) (v : α)
    (p : String × α) (h : p ∈ recordSet r k v) : p ∈ r ∨ p = (k, v) := by
  induction r with
  | nil => simp [recordSet] at h; simp [h]
  | cons q r ih =>
    by_cases hq : q.1 = k
    · simp [recordSet, hq] at h
      rcases h with h | h
      · right; simp [h]
      · left; simp [h]
    · simp [recordSet, hq] at h
      rcases h with h | h
      · left; simp [h]
      · rcases ih h with h' | h'
        · left; simp [h']
        · right; exact h'

theorem recordGet_of_nodup {α : Type} (l : List (String × α))
    (hnd : (l.map Prod.fst).Nodup) (kv : String × α) (h : kv ∈ l) :
    recordGet l kv.1 = some kv.2 := by
  induction l with
  | nil => simp at h
  | cons p l ih =>
    rcases List.mem_cons.mp h with h | h
    · subst h; simp [recordGet]
    · have hmap : (List.map Prod.fst (p :: l)).Nodup := hnd
      have hp : p.1 ≠ kv.1 := by
        intro hc
        exact (List.nodup_cons.mp hmap).1 (hc ▸ List.mem_map_of_mem Prod.fst h)
      simp [recordGet, hp, ih (List.nodup_cons.mp hmap).2 h]

/-! ### Fold characterizations -/

theorem foldl_recordSet_eq_append {β γ : Type} (f : String × β → γ) :
    ∀ (l : List (String × β)) (init : List (String × γ)),
      (l.map Prod.fst).Nodup →
      (∀ p ∈ init, ∀ kv ∈ l, p.1 ≠ kv.1) →
      l.foldl (fun acc kv => recordSet acc kv.1 (f kv)) init
        = init ++ l.map (fun kv => (kv.1, f kv)) := by
  intro l
  induction l with
  | nil => intro init _ _; simp
  | cons kv l ih =>
    intro init hnd hdisj
    have hset : recordSet init kv.1 (f kv) = init ++ [(kv.1, f kv)] :=
      recordSet_of_forall_ne init kv.1 (f kv)
        (fun p hp => hdisj p hp kv (by simp))
    have hnd' : (l.map Prod.fst).Nodup := (List.nodup_cons.mp hnd).2
    have hhead : kv.1 ∉ l.map Prod.fst := (List.nodup_cons.mp hnd).1
    have hdisj' : ∀ p ∈ init ++ [(kv.1, f kv)], ∀ kv' ∈ l, p.1 ≠ kv'.1 := by
      intro p hp kv' hkv'
      rcases List.mem_append.mp hp with hp | hp
      · exact hdisj p hp kv' (by simp [hkv'])
      · simp at hp
        subst hp
        intro hc
        exact hhead (hc ▸ List.mem_map_of_mem Prod.fst hkv')
    calc (kv :: l).foldl (fun acc kv => recordSet acc kv.1 (f kv)) init
        = l.foldl (fun acc kv => recordSet acc kv.1 (f kv)) (init ++ [(kv.1, f kv)]) := by
          simp [List.foldl_cons, hset]
      _ = (init ++ [(kv.1, f kv)]) ++ l.map (fun kv => (kv.1, f kv)) := ih _ hnd' hdisj'
      _ = init ++ (kv :: l).map (fun kv => (kv.1, f kv)) := by simp

theorem foldl_recordSet_eq_map {β γ : Type} (f : String × β → γ) (l : List (String × β))
    (hnd : (l.map Prod.fst).Nodup) :
    l.foldl (fun acc kv => recordSet acc kv.1 (f kv)) []
      = l.map (fun kv => (kv.1, f kv)) := by
  simpa using foldl_recordSet_eq_append f l [] hnd (by simp)

theorem foldl_skip_empty_eq_filter {β γ : Type} (key : String × β → String)
    (g : String × β → γ) :
    ∀ (l : List (String × β)) (init : List (String × γ)),
      l.foldl (fun res kv => if kv.1 = "" then res else recordSet res (key kv) (g kv)) init
        = (l.filter (fun kv => decide (kv.1 ≠ ""))).foldl
            (fun res kv => recordSet res (key kv) (g kv)) init := by
  intro l
  induction l with
  | nil => intro init; rfl
  | cons kv l ih =>
    intro init
    by_cases h : kv.1 = ""
    · simp [List.foldl_cons, List.filter_cons, h, ih]
    · simp [List.foldl_cons, List.filter_cons, h, ih]

theorem recordGet_recordSets {α : Type} :
    ∀ (ps : List (String × α)) (init : List (String × α)) (k : String),
      recordGet (recordSets init ps) k = (lookupLast ps k).or (recordGet init k) := by
  intro ps
  induction ps with
  | nil => intro init k; simp [recordSets, lookupLast]
  | cons q ps ih =>
    intro init k
    have step : recordSets init (q :: ps) = recordSets (recordSet init q.1 q.2) ps := rfl
    rw [step, ih]
    have hfind : lookupLast (q :: ps) k
        = (lookupLast ps k).or (if q.1 = k then some q.2 else none) := by
      simp only [lookupLast, List.reverse_cons, List.find?_append]
      rcases hf : List.find? (fun kv => decide (kv.1 = k)) ps.reverse with _ | w
      · by_cases hq : q.1 = k
        · simp [List.find?, hq, hf]
        · simp [List.find?, hq, hf]
      · simp [hf]
    rw [hfind]
    rcases hf : lookupLast ps k with _ | v
    · simp only [Option.none_or]
      rw [recordGet_recordSet]
      by_cases hq : q.1 = k
      · simp [hq]
      · simp [hq, Ne.symm hq]
    · simp

theorem rainbeam_fold_aux :
    ∀ (ts : List (String × List (String × GettextParserDataEntry)))
      (init : List (String × String)),
      ts.foldl
        (fun res ctx => ctx.2.foldl
          (fun res kv =>
            if kv.1 = "" then res
            else recordSet res ctx.1 (msgstrJoin kv.2.msgstr))
          res)
        init
      = recordSets init (ts.flatMap (fun ctx =>
          (ctx.2.filter (fun kv => decide (kv.1 ≠ ""))).map
            (fun kv => (ctx.1, msgstrJoin kv.2.msgstr)))) := by
  intro ts
  induction ts with
  | nil => intro init; rfl
  | cons c ts ih =>
    intro init
    have hfilter :
        c.2.foldl
          (fun res kv =>
            if kv.1 = "" then res
            else recordSet res c.1 (msgstrJoin kv.2.msgstr))
          init
        = (c.2.filter (fun kv => decide (kv.1 ≠ ""))).foldl
            (fun res kv => recordSet res c.1 (msgstrJoin kv.2.msgstr)) init :=
      foldl_skip_empty_eq_filter (fun _ => c.1) (fun kv => msgstrJoin kv.2.msgstr) c.2 init
    have hinner :
        c.2.foldl
          (fun res kv =>
            if kv.1 = "" then res
            else recordSet res c.1 (msgstrJoin kv.2.msgstr))
          init
        = recordSets init
            ((c.2.filter (fun kv => decide (kv.1 ≠ ""))).map
              (fun kv => (c.1, msgstrJoin kv.2.msgstr))) := by
      rw [hfilter]
      simp [recordSets, List.foldl_map]
    simp only [List.foldl_cons, List.flatMap_cons, hinner, ih]
    simp [recordSets, List.foldl_append]

theorem rainbeamToJson_data (p : GettextParserData) :
    (rainbeamToJson p).data = recordSets [] (rainbeamPairs p) := by
  simp [rainbeamToJson, rainbeamPairs, rainbeam_fold_aux]

theorem recordSets_accum_const_key {α : Type} (c : String) :
    ∀ (ps : List (String × α)) (v : α), (∀ kv ∈ ps, kv.1 = c) →
      recordSets [(c, v)] ps = [(c, (lookupLast ps c).getD v)] := by
  intro ps
  induction ps with
  | nil => intro v _; simp [recordSets, lookupLast]
  | cons q ps ih =>
    intro v hc
    have hq : q.1 = c := hc q (by simp)
    have step : recordSets [(c, v)] (q :: ps) = recordSets [(c, q.2)] ps := by
      simp [recordSets, List.foldl_cons, recordSet, hq]
    rw [step, ih q.2 (fun kv hkv => hc kv (by simp [hkv]))]
    have : lookupLast (q :: ps) c = some ((lookupLast ps c).getD q.2) := by
      simp only [lookupLast, List.reverse_cons, List.find?_append]
      rcases hf : List.find? (fun kv => decide (kv.1 = c)) ps.reverse with _ | w
      · simp [List.find?, hq, hf]
      · simp [hf]
    simp [this]

theorem lookupLast_const_key {α : Type} (c : String) (ps : List (String × α))
    (hc : ∀ kv ∈ ps, kv.1 = c) :
    lookupLast ps c = ps.getLast?.map Prod.snd := by
  rcases hrev : ps.reverse with _ | ⟨w, t⟩
  · have : ps = [] := by simpa using congrArg List.reverse hrev
    simp [this, lookupLast]
  · have hw : w ∈ ps := by
      have : w ∈ ps.reverse := by simp [hrev]
      simpa using this
    have hlast : ps.getLast? = some w := by
      rw [← List.head?_reverse, hrev]; rfl
    simp [lookupLast, hrev, List.find?, hc w hw, hlast]

theorem recordSets_const_key_getLast {α : Type} (c : String)
    (ps : List (String × α)) (w : String × α)
    (hc : ∀ kv ∈ ps, kv.1 = c) (hl : ps.getLast? = some w) :
    recordSets [] ps = [(c, w.2)] := by
  rcases ps with _ | ⟨q, rest⟩
  · simp at hl
  · have hq : q.1 = c := hc q (by simp)
    have step : recordSets [] (q :: rest) = recordSets [(c, q.2)] rest := by
      simp [recordSets, List.foldl_cons, recordSet, hq]
    rw [step, recordSets_accum_const_key c rest q.2 (fun kv hkv => hc kv (by simp [hkv]))]
    rw [lookupLast_const_key c rest (fun kv hkv => hc kv (by simp [hkv]))]
    rcases rest with _ | ⟨r, rs⟩
    · simp at hl
      simp [hl]
    · rw [List.getLast?_cons_cons] at hl
      simp [hl]

theorem lookupLast_append {α : Type} (l₁ l₂ : List (String × α)) (k : String) :
    lookupLast (l₁ ++ l₂) k = (lookupLast l₂ k).or (lookupLast l₁ k) := by
  simp only [lookupLast, List.reverse_append, List.find?_append]
  rcases hf : List.find? (fun kv => decide (kv.1 = k)) l₂.reverse with _ | w
  · simp [hf]
  · simp [hf]

theorem lookupLast_eq_none_of_keys_ne {α : Type} (ps : List (String × α)) (k : String)
    (h : ∀ kv ∈ ps, kv.1 ≠ k) : lookupLast ps k = none := by
  have hfind : List.find? (fun kv => decide (kv.1 = k)) ps.reverse = none := by
    rw [List.find?_eq_none]
    intro kv hkv
    simp [h kv (List.mem_reverse.mp hkv)]
  rw [lookupLast, hfind]
  rfl

theorem lookupLast_flatMap_of_nodup
    (ts : List (String × List (String × GettextParserDataEntry))) (c : String)
    (objects : List (String × GettextParserDataEntry))
    (hnd : (ts.map Prod.fst).Nodup) (hmem : (c, objects) ∈ ts) :
    lookupLast (ts.flatMap (fun ctx =>
        (ctx.2.filter (fun kv => decide (kv.1 ≠ ""))).map
          (fun kv => (ctx.1, msgstrJoin kv.2.msgstr)))) c
      = lookupLast ((objects.filter (fun kv => decide (kv.1 ≠ ""))).map
          (fun kv => (c, msgstrJoin kv.2.msgstr))) c := by
  induction ts with
  | nil => simp at hmem
  | cons t ts ih =>
    rw [List.flatMap_cons, lookupLast_append]
    rcases List.mem_cons.mp hmem with heq | hmem'
    · subst heq
      have hnotc : ∀ kv ∈ ts.flatMap (fun ctx =>
          (ctx.2.filter (fun kv => decide (kv.1 ≠ ""))).map
            (fun kv => (ctx.1, msgstrJoin kv.2.msgstr))), kv.1 ≠ c := by
        intro kv hkv
        rcases List.mem_flatMap.mp hkv with ⟨ctx, hctx, hkv'⟩
        rcases List.mem_map.mp hkv' with ⟨q, _, rfl⟩
        intro hc1
        have hcmem : c ∈ ts.map Prod.fst :=
          hc1 ▸ List.mem_map_of_mem Prod.fst hctx
        exact (List.nodup_cons.mp hnd).1 hcmem
      rw [lookupLast_eq_none_of_keys_ne _ c hnotc, Option.none_or]
    · have htc : t.1 ≠ c := by
        intro hc1
        have hcmem : c ∈ ts.map Prod.fst := List.mem_map_of_mem Prod.fst hmem'
        exact (List.nodup_cons.mp hnd).1 (hc1 ▸ hcmem)
      have hhead : lookupLast ((t.2.filter (fun kv => decide (kv.1 ≠ ""))).map
          (fun kv => (t.1, msgstrJoin kv.2.msgstr))) c = none := by
        apply lookupLast_eq_none_of_keys_ne
        intro kv hkv
        rcases List.mem_map.mp hkv with ⟨q, _, rfl⟩
        exact htc
      rw [hhead, Option.or_none]
      exact ih (List.nodup_cons.mp hnd).2 hmem'

/-! ### Converter characterizations -/

theorem msgstrJoin_singleton (s : String) : msgstrJoin [some s] = s := by
  simp [msgstrJoin, String.join]

theorem wei18nToPo_translations (json : Wei18n) (locale : String)
    (refs : Option (List Wei18n)) (hnd : (json.map Prod.fst).Nodup) :
    (wei18nToPo json locale refs).translations
      = [("", json.map (fun kv => (kv.1, wei18nMkEntry refs kv.1 kv.2)))] :=
  congrArg (fun x => [("", x)])
    (foldl_recordSet_eq_map (fun kv => wei18nMkEntry refs kv.1 kv.2) json hnd)

theorem rainbeamToPo_translations (json : RainbeamI18nData) (locale : String)
    (source : Option RainbeamI18nData)
    (hnd : (((source.getD json).data).map Prod.fst).Nodup) :
    (rainbeamToPo json locale source).translations
      = [("", ((source.getD json).data).map
          (fun kv => (kv.1, rainbeamMkEntry json source kv.1 kv.2)))] :=
  congrArg (fun x => [("", x)])
    (foldl_recordSet_eq_map (fun kv => rainbeamMkEntry json source kv.1 kv.2)
      ((source.getD json).data) hnd)

theorem wei18nToJson_eq (d : GettextParserData)
    (objects : List (String × GettextParserDataEntry))
    (hget : recordGet d.translations "" = some objects)
    (hnd : (objects.map Prod.fst).Nodup) :
    wei18nToJson d
      = some ((objects.filter (fun kv => decide (kv.1 ≠ ""))).map
          (fun kv => (kv.1,
            { message := msgstrJoin kv.2.msgstr,
              description := kv.2.comments.bind GettextComments.extracted }))) := by
  have hndf : ((objects.filter (fun kv => decide (kv.1 ≠ ""))).map Prod.fst).Nodup :=
    List.Nodup.sublist (List.Sublist.map Prod.fst (List.filter_sublist objects)) hnd
  have hfilter :
      objects.foldl
        (fun res kv =>
          if kv.1 = "" then res
          else recordSet res kv.1
            ({ message := msgstrJoin kv.2.msgstr,
               description := kv.2.comments.bind GettextComments.extracted } : Wei18nEntry))
        []
      = (objects.filter (fun kv => decide (kv.1 ≠ ""))).foldl
          (fun res kv => recordSet res kv.1
            ({ message := msgstrJoin kv.2.msgstr,
               description := kv.2.comments.bind GettextComments.extracted } : Wei18nEntry))
          [] :=
    foldl_skip_empty_eq_filter (fun kv => kv.1)
      (fun kv => ({ message := msgstrJoin kv.2.msgstr,
                    description := kv.2.comments.bind GettextComments.extracted } : Wei18nEntry))
      objects []
  have hmap :
      (objects.filter (fun kv => decide (kv.1 ≠ ""))).foldl
          (fun res kv => recordSet res kv.1
            ({ message := msgstrJoin kv.2.msgstr,
               description := kv.2.comments.bind GettextComments.extracted } : Wei18nEntry))
          []
        = (objects.filter (fun kv => decide (kv.1 ≠ ""))).map
            (fun kv => (kv.1,
              ({ message := msgstrJoin kv.2.msgstr,
                 description := kv.2.comments.bind GettextComments.extracted } : Wei18nEntry))) :=
    foldl_recordSet_eq_map
      (fun kv => ({ message := msgstrJoin kv.2.msgstr,
                    description := kv.2.comments.bind GettextComments.extracted } : Wei18nEntry))
      (objects.filter (fun kv => decide (kv.1 ≠ ""))) hndf
  simp only [wei18nToJson, hget, hfilter, hmap]

theorem wei18n_fold_erase (refs : Option (List Wei18n)) :
    ∀ (m : Wei18n) (init : List (String × GettextParserDataEntry)),
      (erasePlaceholders m).foldl
        (fun acc kv => recordSet acc kv.1 (wei18nMkEntry refs kv.1 kv.2)) init
      = m.foldl (fun acc kv => recordSet acc kv.1 (wei18nMkEntry refs kv.1 kv.2)) init := by
  intro m
  induction m with
  | nil => intro init; rfl
  | cons kv m ih => intro init; exact ih (recordSet init kv.1 (wei18nMkEntry refs kv.1 kv.2))

theorem wei18nToPo_erasePlaceholders (m : Wei18n) (locale : String)
    (refs : Option (List Wei18n)) :
    wei18nToPo (erasePlaceholders m) locale refs = wei18nToPo m locale refs := by
  simp only [wei18nToPo]
  rw [wei18n_fold_erase]

theorem foldl_recordSet_preserve {β γ : Type} (P : γ → Prop)
    (key : String × β → String) (g : String × β → γ) (hg : ∀ kv, P (g kv)) :
    ∀ (l : List (String × β)) (init : List (String × γ)),
      (∀ p ∈ init, P p.2) →
      ∀ p ∈ l.foldl
          (fun res kv => if kv.1 = "" then res else recordSet res (key kv) (g kv)) init,
        P p.2 := by
  intro l
  induction l with
  | nil => intro init hinit p hp; exact hinit p hp
  | cons kv l ih =>
    intro init hinit p hp
    by_cases h : kv.1 = ""
    · simp only [List.foldl_cons, h, if_pos rfl] at hp
      exact ih init hinit p (by simpa [h] using hp)
    · have hinit' : ∀ q ∈ recordSet init (key kv) (g kv), P q.2 := by
        intro q hq
        rcases mem_recordSet init (key kv) (g kv) q hq with hq' | hq'
        · exact hinit q hq'
        · rw [hq']; exact hg kv
      simp only [List.foldl_cons, h, if_neg h] at hp
      exact ih _ hinit' p hp

theorem wei18nMkEntry_none_roundtrip (k : String) (e : Wei18nEntry) :
    ({ message := msgstrJoin (wei18nMkEntry none k e).msgstr,
       description := (wei18nMkEntry none k e).comments.bind GettextComments.extracted }
       : Wei18nEntry)
      = { message := e.message,
          description := if truthyStr e.description then e.description else none } := by
  obtain ⟨msg, desc, ph⟩ := e
  rcases desc with _ | d
  · simp [wei18nMkEntry, truthyStr, msgstrJoin_singleton]
  · by_cases hd : d = ""
    · subst hd; simp [wei18nMkEntry, truthyStr, msgstrJoin_singleton]
    · simp [wei18nMkEntry, truthyStr, hd, msgstrJoin_singleton]

theorem wei18nMkEntry_two_refs (k : String) (e : Wei18nEntry) (R1 R2 : Wei18n)
    (e1 e2 : Wei18nEntry)
    (h1 : recordGet R1 k = some e1) (h2 : recordGet R2 k = some e2)
    (hne : e1.message ≠ "") :
    (wei18nMkEntry (some [R1, R2]) k e).comments.bind GettextComments.translator
      = some (e1.message ++ "\n\n" ++ e2.message) := by
  obtain ⟨msg, desc, ph⟩ := e
  rcases desc with _ | d
  · simp [wei18nMkEntry, addReference, h1, h2, truthyStr, hne]
  · by_cases hd : d = ""
    · subst hd; simp [wei18nMkEntry, addReference, h1, h2, truthyStr, hne]
    · simp [wei18nMkEntry, addReference, h1, h2, truthyStr, hd, hne]

/-! ### Claim theorems -/

/-- C6: both JSON→PO conversions produce a document with charset `utf-8` and
exactly the fixed headers `Project-Id-Version: placeholder`,
`mime-version: 1.0`, `Content-Type: text/plain; charset=utf-8`,
`Content-Transfer-Encoding: 8bit`, `Plural-Forms: nplurals=1; plural=0`, and
`Language` equal to the caller-supplied locale. -/
theorem toPo_fixed_headers :
    ∀ (json : Wei18n) (rjson : RainbeamI18nData) (locale : String)
      (refs : Option (List Wei18n)) (source : Option RainbeamI18nData),
      (wei18nToPo json locale refs).charset = "utf-8"
      ∧ (wei18nToPo json locale refs).headers
          = [("Project-Id-Version", "placeholder"),
             ("mime-version", "1.0"),
             ("Content-Type", "text/plain; charset=utf-8"),
             ("Content-Transfer-Encoding", "8bit"),
             ("Plural-Forms", "nplurals=1; plural=0"),
             ("Language", locale)]
      ∧ (rainbeamToPo rjson locale source).charset = "utf-8"
      ∧ (rainbeamToPo rjson locale source).headers
          = [("Project-Id-Version", "placeholder"),
             ("mime-version", "1.0"),
             ("Content-Type", "text/plain; charset=utf-8"),
             ("Content-Transfer-Encoding", "8bit"),
             ("Plural-Forms", "nplurals=1; plural=0"),
             ("Language", locale)] :=
  fun _ _ _ _ _ => ⟨rfl, rfl, rfl, rfl⟩

/-- C5: `rainbeamToJson` always returns the fixed placeholders `name = "out"`
and `version = "0.0.0"` (the input document's metadata is never preserved),
and its `data` maps each context to the joined (`join(msgstr, "")`) msgstr of
the last entry with non-empty msgid assigned to that context
(`lookupLast` over the assignment sequence `rainbeamPairs`); contexts with no
such entry are absent. -/
theorem rainbeamToJson_normalizes (p : GettextParserData) :
    (rainbeamToJson p).name = "out"
    ∧ (rainbeamToJson p).version = "0.0.0"
    ∧ ∀ c, recordGet (rainbeamToJson p).data c = lookupLast (rainbeamPairs p) c := by
  refine ⟨rfl, rfl, fun c => ?_⟩
  rw [rainbeamToJson_data, recordGet_recordSets]
  simp [recordGet]

/-- C2: with no source, `rainbeamToPo` emits, for each key/text pair of
`json.data`, an entry with `msgctxt` the key, `msgid` the display text and
empty `msgstr`; with a source, it iterates the source's keys and emits
`msgctxt` the key, `msgid` the source display text, and `msgstr` the
single-element list pre-filled with the target lookup `json.data[key]`. -/
theorem rainbeamToPo_entries (json : RainbeamI18nData) (locale : String) :
    ((json.data.map Prod.fst).Nodup →
      (rainbeamToPo json locale none).translations
        = [("", json.data.map (fun kv => (kv.1,
            ({ msgctxt := some kv.1, msgid := kv.2, msgstr := [] }
              : GettextParserDataEntry))))])
    ∧ ∀ source : RainbeamI18nData, (source.data.map Prod.fst).Nodup →
      (rainbeamToPo json locale (some source)).translations
        = [("", source.data.map (fun kv => (kv.1,
            ({ msgctxt := some kv.1, msgid := kv.2,
               msgstr := [recordGet json.data kv.1] }
              : GettextParserDataEntry))))] := by
  constructor
  · intro hnd
    rw [rainbeamToPo_translations json locale none hnd]
    rfl
  · intro source hnd
    rw [rainbeamToPo_translations json locale (some source) hnd]
    refine congrArg (fun x => [("", x)]) (List.map_congr_left ?_)
    intro kv hkv
    have hget : recordGet source.data kv.1 = some kv.2 :=
      recordGet_of_nodup source.data hnd kv hkv
    simp [rainbeamMkEntry, hget]

/-- C2 witness: the two concrete conversions of the specification's Rainbeam
asymmetry example evaluate to the claimed entry shapes. -/
theorem rainbeamToPo_entries_witness :
    (rainbeamToPo ⟨"hello", "0.1", [("key1", "Key 1"), ("key2", "Key 2")]⟩
        "en-US" none).translations
      = [("", [("key1", { msgctxt := some "key1", msgid := "Key 1", msgstr := [] }),
               ("key2", { msgctxt := some "key2", msgid := "Key 2", msgstr := [] })])]
    ∧ (rainbeamToPo ⟨"hello", "0.1", [("key1", "金鑰 1"), ("key2", "金鑰 2")]⟩
        "zh-TW" (some ⟨"hello", "0.1", [("key1", "Key 1"), ("key2", "Key 2")]⟩)).translations
      = [("", [("key1", { msgctxt := some "key1", msgid := "Key 1",
                          msgstr := [some "金鑰 1"] }),
               ("key2", { msgctxt := some "key2", msgid := "Key 2",
                          msgstr := [some "金鑰 2"] })])] :=
  ⟨(rainbeamToPo_entries ⟨"hello", "0.1", [("key1", "Key 1"), ("key2", "Key 2")]⟩
      "en-US").1 (by decide),
   (rainbeamToPo_entries ⟨"hello", "0.1", [("key1", "金鑰 1"), ("key2", "金鑰 2")]⟩
      "zh-TW").2 ⟨"hello", "0.1", [("key1", "Key 1"), ("key2", "Key 2")]⟩ (by decide)⟩

/-- C9 counterexample: for the Rainbeam input with key `""` and display text
`"x"`, the display text differs from the key, yet the emitted entry's
`msgctxt` is `some ""` — the very string that is the outer context key — so
the claimed "the outer context key does not equal the entry's msgctxt" fails
at this input. -/
theorem rainbeam_context_shape_cex :
    (rainbeamToPo ⟨"n", "v", [("", "x")]⟩ "en" none).translations
      = [("", [("", { msgctxt := some "", msgid := "x", msgstr := [] })])]
    ∧ ("x" : String) ≠ "" :=
  ⟨rfl, by decide⟩

/-- C9 (amended): `rainbeamToPo` — with or without a source — stores every
entry under the single outer context `""`, keyed by the key of the iterated
record `(source ?? json).data`, with the entry's `msgctxt` that key and its
`msgid` the display text; hence whenever the display text differs from the
key, the inner mapping key differs from the entry's `msgid`, and — for
non-empty keys — the outer context key `""` differs from the string held in
the entry's `msgctxt`.  (For the key `""` itself the two coincide, as the
counterexample shows.) -/
theorem rainbeam_context_shape (json : RainbeamI18nData) (locale : String)
    (source : Option RainbeamI18nData)
    (hnd : (((source.getD json).data).map Prod.fst).Nodup) :
    (rainbeamToPo json locale source).translations
      = [("", ((source.getD json).data).map (fun kv =>
          (kv.1, rainbeamMkEntry json source kv.1 kv.2)))]
    ∧ ∀ kv ∈ (source.getD json).data,
        ∀ e, recordGet
              ((recordGet (rainbeamToPo json locale source).translations "").getD [])
              kv.1 = some e →
          e.msgctxt = some kv.1 ∧ e.msgid = kv.2
          ∧ (kv.2 ≠ kv.1 → e.msgid ≠ kv.1)
          ∧ (kv.1 ≠ "" → e.msgctxt ≠ some "") := by
  have hshape := rainbeamToPo_translations json locale source hnd
  refine ⟨hshape, ?_⟩
  intro kv hkv e he
  have houter :
      (recordGet (rainbeamToPo json locale source).translations "").getD []
        = ((source.getD json).data).map (fun kv =>
            (kv.1, rainbeamMkEntry json source kv.1 kv.2)) := by
    rw [hshape]; rfl
  rw [houter] at he
  have hkeys :
      ((((source.getD json).data).map (fun kv =>
          (kv.1, rainbeamMkEntry json source kv.1 kv.2))).map Prod.fst).Nodup := by
    rw [List.map_map]
    exact hnd
  have hmem :=
    List.mem_map_of_mem (fun kv => (kv.1, rainbeamMkEntry json source kv.1 kv.2)) hkv
  have hg := recordGet_of_nodup _ hkeys _ hmem
  have hg' :
      recordGet (((source.getD json).data).map (fun kv =>
          (kv.1, rainbeamMkEntry json source kv.1 kv.2))) kv.1
        = some (rainbeamMkEntry json source kv.1 kv.2) := hg
  rw [he] at hg'
  obtain rfl : e = rainbeamMkEntry json source kv.1 kv.2 :=
    (Option.some.injEq _ _).mp hg'
  have hmsgid : (rainbeamMkEntry json source kv.1 kv.2).msgid = kv.2 := by
    rcases source with _ | src
    · rfl
    · have hs : recordGet src.data kv.1 = some kv.2 :=
        recordGet_of_nodup src.data hnd kv hkv
      simp [rainbeamMkEntry, hs]
  refine ⟨rfl, hmsgid, fun hne => ?_, fun hk hc => ?_⟩
  · rw [hmsgid]; exact hne
  · exact hk (Option.some.injEq _ _ |>.mp hc)

/-- C9 witness: with target `{a: "A"}` and source `{a: "原"}`, the single
entry sits under outer context `""` at inner key `a` with `msgctxt` `a`,
`msgid` the display text `原` and pre-filled msgstr; the inner key differs
from the msgid and the outer context key differs from the msgctxt string. -/
theorem rainbeam_context_shape_witness :
    (rainbeamToPo ⟨"t", "1", [("a", "A")]⟩ "en"
        (some ⟨"s", "1", [("a", "原")]⟩)).translations
      = [("", [("a", { msgctxt := some "a", msgid := "原",
                       msgstr := [some "A"] })])]
    ∧ ({ msgctxt := some "a", msgid := "原", msgstr := [some "A"] }
        : GettextParserDataEntry).msgid ≠ "a"
    ∧ ({ msgctxt := some "a", msgid := "原", msgstr := [some "A"] }
        : GettextParserDataEntry).msgctxt ≠ some "" := by
  have h := rainbeam_context_shape ⟨"t", "1", [("a", "A")]⟩ "en"
    (some ⟨"s", "1", [("a", "原")]⟩) (by decide)
  have h2 := h.2 ("a", "原") (by decide)
    { msgctxt := some "a", msgid := "原", msgstr := [some "A"] } rfl
  exact ⟨h.1, h2.2.2.1 (by decide), h2.2.2.2 (by decide)⟩

/-- C10: in any PO document with duplicate-free context keys, when a single
context `c` holds more than one entry with non-empty msgid, `rainbeamToJson`
maps `c` to the joined msgstr of only the entry processed last in iteration
order; the translations of earlier entries under `c` are overwritten and
absent from the output. -/
theorem rainbeamToJson_last_wins (p : GettextParserData) (c : String)
    (objects : List (String × GettextParserDataEntry))
    (w : String × GettextParserDataEntry)
    (hnd : (p.translations.map Prod.fst).Nodup)
    (hmem : (c, objects) ∈ p.translations)
    (hw : (objects.filter (fun kv => decide (kv.1 ≠ ""))).getLast? = some w)
    (_hlen : 2 ≤ (objects.filter (fun kv => decide (kv.1 ≠ ""))).length) :
    recordGet (rainbeamToJson p).data c = some (msgstrJoin w.2.msgstr) := by
  rw [rainbeamToJson_data, recordGet_recordSets]
  have hflat :
      lookupLast (rainbeamPairs p) c
        = lookupLast ((objects.filter (fun kv => decide (kv.1 ≠ ""))).map
            (fun kv => (c, msgstrJoin kv.2.msgstr))) c :=
    lookupLast_flatMap_of_nodup p.translations c objects hnd hmem
  have hkeysc : ∀ kv ∈ (objects.filter (fun kv => decide (kv.1 ≠ ""))).map
      (fun kv => (c, msgstrJoin kv.2.msgstr)), kv.1 = c := by
    intro kv hkv
    rcases List.mem_map.mp hkv with ⟨q, _, rfl⟩
    rfl
  rw [hflat, lookupLast_const_key c _ hkeysc, List.getLast?_map, hw]
  simp [recordGet]

/-- C10 witness: a document carrying the header context `""` alongside a
context `ctx` holding two non-empty-msgid entries with msgstr `["A"]` and
`["B"]` maps `ctx` to only the last entry's text `"B"`. -/
theorem rainbeamToJson_last_wins_witness :
    recordGet (rainbeamToJson ⟨"utf-8", [],
        [("", [("", { msgid := "", msgstr := [] })]),
         ("ctx", [("a", { msgid := "a", msgstr := [some "A"] }),
                  ("b", { msgid := "b", msgstr := [some "B"] })])]⟩).data "ctx"
      = some "B" :=
  rainbeamToJson_last_wins
    ⟨"utf-8", [],
      [("", [("", { msgid := "", msgstr := [] })]),
       ("ctx", [("a", { msgid := "a", msgstr := [some "A"] }),
                ("b", { msgid := "b", msgstr := [some "B"] })])]⟩
    "ctx"
    [("a", { msgid := "a", msgstr := [some "A"] }),
     ("b", { msgid := "b", msgstr := [some "B"] })]
    ("b", { msgid := "b", msgstr := [some "B"] })
    (by decide) (by decide) (by decide) (by decide)

/-- C1 counterexample: the round trip does not restore every description and
does not cover every key.  An entry whose description is the empty string
(falsy in JavaScript) comes back with no description at all, and an entry
whose key is the reserved empty msgid `""` is dropped entirely by
`wei18nToJson`'s header skip. -/
theorem wei18n_round_trip_cex :
    wei18nToJson (wei18nToPo [("k", { message := "m", description := some "" })] "en" none)
      = some [("k", { message := "m" })]
    ∧ wei18nToJson (wei18nToPo [("k", { message := "m", description := some "" })] "en" none)
      ≠ some [("k", { message := "m", description := some "" })]
    ∧ wei18nToJson (wei18nToPo [("", { message := "x" })] "en" none) = some []
    ∧ wei18nToJson (wei18nToPo [("", { message := "x" })] "en" none)
      ≠ some [("", { message := "x" })] := by
  refine ⟨rfl, by decide, rfl, by decide⟩

/-- C1 (amended): for a WebExt map with duplicate-free keys none of which is
the reserved empty msgid `""`, converting with `wei18nToPo` and back with
`wei18nToJson` yields, for each key, exactly the message text; a description
survives the round trip exactly when it is truthy (non-empty) — an empty or
absent description comes back absent. -/
theorem wei18n_round_trip (m : Wei18n) (locale : String)
    (hnd : (m.map Prod.fst).Nodup) (hne : ∀ kv ∈ m, kv.1 ≠ "") :
    wei18nToJson (wei18nToPo m locale none)
      = some (m.map (fun kv => (kv.1,
          ({ message := kv.2.message,
             description := if truthyStr kv.2.description then kv.2.description else none }
            : Wei18nEntry)))) := by
  have htr := wei18nToPo_translations m locale none hnd
  have hget : recordGet (wei18nToPo m locale none).translations ""
      = some (m.map (fun kv => (kv.1, wei18nMkEntry none kv.1 kv.2))) := by
    rw [htr]; simp [recordGet]
  have hkeysE : ((m.map (fun kv => (kv.1, wei18nMkEntry none kv.1 kv.2))).map Prod.fst).Nodup := by
    rw [List.map_map]; exact hnd
  rw [wei18nToJson_eq _ _ hget hkeysE]
  have hfilter :
      (m.map (fun kv => (kv.1, wei18nMkEntry none kv.1 kv.2))).filter
          (fun kv => decide (kv.1 ≠ ""))
        = m.map (fun kv => (kv.1, wei18nMkEntry none kv.1 kv.2)) := by
    apply List.filter_eq_self.mpr
    intro kv hkv
    rcases List.mem_map.mp hkv with ⟨q, hq, rfl⟩
    simpa using hne q hq
  rw [hfilter, List.map_map]
  refine congrArg some (List.map_congr_left ?_)
  intro kv _
  exact congrArg (fun e => (kv.1, e)) (wei18nMkEntry_none_roundtrip kv.1 kv.2)

/-- C1 witness: the specification's end-to-end example round-trips to exactly
the message map. -/
theorem wei18n_round_trip_witness :
    wei18nToJson (wei18nToPo
        [("key1", { message := "Key 1" }), ("key2", { message := "Key 2" })] "en-US" none)
      = some [("key1", { message := "Key 1" }), ("key2", { message := "Key 2" })] :=
  wei18n_round_trip
    [("key1", { message := "Key 1" }), ("key2", { message := "Key 2" })]
    "en-US" (by decide) (by decide)

/-- C3 counterexample: with two reference maps both containing key `k`,
where the first reference's message is the empty string, the resulting
translator comment is only the second message `"x"` — not the claimed
concatenation `"" ++ "\n\n" ++ "x"` — because the JavaScript truthiness test
`!comments.translator` treats the stored empty string as unset and
overwrites it. -/
theorem wei18n_reference_concat_cex :
    translatorOf (wei18nToPo [("k", { message := "m" })] "en"
        (some [[("k", { message := "" })], [("k", { message := "x" })]])) "k"
      = some "x"
    ∧ (some "x" : Option String) ≠ some ("" ++ "\n\n" ++ "x") :=
  ⟨rfl, by decide⟩

/-- C3 (amended): for a WebExt map with duplicate-free keys and references
`[R1, R2]` both containing key `k`, provided `R1[k].message` is non-empty,
the emitted entry's translator comment equals `R1[k].message` followed by a
blank line followed by `R2[k].message`. -/
theorem wei18n_reference_concat (m : Wei18n) (locale : String) (k : String)
    (e e1 e2 : Wei18nEntry) (R1 R2 : Wei18n)
    (hnd : (m.map Prod.fst).Nodup) (hm : (k, e) ∈ m)
    (h1 : recordGet R1 k = some e1) (h2 : recordGet R2 k = some e2)
    (hne : e1.message ≠ "") :
    translatorOf (wei18nToPo m locale (some [R1, R2])) k
      = some (e1.message ++ "\n\n" ++ e2.message) := by
  have htr := wei18nToPo_translations m locale (some [R1, R2]) hnd
  have hkeysE :
      ((m.map (fun kv => (kv.1, wei18nMkEntry (some [R1, R2]) kv.1 kv.2))).map Prod.fst).Nodup := by
    rw [List.map_map]; exact hnd
  have hmem : (k, wei18nMkEntry (some [R1, R2]) k e)
      ∈ m.map (fun kv => (kv.1, wei18nMkEntry (some [R1, R2]) kv.1 kv.2)) :=
    List.mem_map_of_mem _ hm
  have hget := recordGet_of_nodup _ hkeysE _ hmem
  have hout : translatorOf (wei18nToPo m locale (some [R1, R2])) k
      = (recordGet (m.map (fun kv => (kv.1, wei18nMkEntry (some [R1, R2]) kv.1 kv.2))) k).bind
          (fun e => e.comments.bind GettextComments.translator) := by
    simp only [translatorOf, htr]
    simp [recordGet]
  rw [hout, hget]
  simpa using wei18nMkEntry_two_refs k e R1 R2 e1 e2 h1 h2 hne

/-- C3 witness: with target `{k: "m"}` and references `{k: "a"}`, `{k: "b"}`,
the translator comment is `"a"` then a blank line then `"b"`. -/
theorem wei18n_reference_concat_witness :
    translatorOf (wei18nToPo [("k", { message := "m" })] "en"
        (some [[("k", { message := "a" })], [("k", { message := "b" })]])) "k"
      = some ("a" ++ "\n\n" ++ "b") :=
  wei18n_reference_concat [("k", { message := "m" })] "en" "k"
    { message := "m" } { message := "a" } { message := "b" }
    [("k", { message := "a" })] [("k", { message := "b" })]
    (by decide) (by decide) rfl rfl (by decide)

/-- C4: conversion to PO puts the entries under the single context `""` with
inner keys exactly (and exactly once each) the keys of the input map; and
`wei18nToJson` emits exactly one JSON entry for each PO entry under context
`""` whose record key (msgid) is not the reserved empty string. -/
theorem wei18n_key_coverage :
    (∀ (m : Wei18n) (locale : String) (refs : Option (List Wei18n)),
      (m.map Prod.fst).Nodup →
      (wei18nToPo m locale refs).translations.map Prod.fst = [""]
      ∧ ((recordGet (wei18nToPo m locale refs).translations "").getD []).map Prod.fst
          = m.map Prod.fst
      ∧ ∀ k ∈ m.map Prod.fst,
          (((recordGet (wei18nToPo m locale refs).translations "").getD []).map
            Prod.fst).count k = 1)
    ∧ ∀ (d : GettextParserData) (objects : List (String × GettextParserDataEntry)),
        recordGet d.translations "" = some objects →
        (objects.map Prod.fst).Nodup →
        wei18nToJson d
          = some ((objects.filter (fun kv => decide (kv.1 ≠ ""))).map
              (fun kv => (kv.1,
                ({ message := msgstrJoin kv.2.msgstr,
                   description := kv.2.comments.bind GettextComments.extracted }
                  : Wei18nEntry)))) := by
  constructor
  · intro m locale refs hnd
    have htr := wei18nToPo_translations m locale refs hnd
    have hE : ((recordGet (wei18nToPo m locale refs).translations "").getD []).map Prod.fst
        = m.map Prod.fst := by
      rw [htr]
      simp [recordGet, List.map_map]
    refine ⟨by rw [htr]; rfl, hE, ?_⟩
    intro k hk
    rw [hE]
    exact List.count_eq_one_of_mem hnd hk
  · intro d objects hget hnd
    exact wei18nToJson_eq d objects hget hnd

/-- C4 witness: the two-key example yields exactly the inner keys
`key1, key2` (once each), and a PO document with a header pseudo-entry and
one real entry converts back to exactly one JSON entry. -/
theorem wei18n_key_coverage_witness :
    (wei18nToPo [("key1", { message := "Key 1" }), ("key2", { message := "Key 2" })]
        "en-US" none).translations.map Prod.fst = [""]
    ∧ ((recordGet (wei18nToPo
          [("key1", { message := "Key 1" }), ("key2", { message := "Key 2" })]
          "en-US" none).translations "").getD []).map Prod.fst = ["key1", "key2"]
    ∧ (((recordGet (wei18nToPo
          [("key1", { message := "Key 1" }), ("key2", { message := "Key 2" })]
          "en-US" none).translations "").getD []).map Prod.fst).count "key1" = 1
    ∧ wei18nToJson
        ⟨"utf-8", [],
          [("", [("", { msgid := "", msgstr := [] }),
                 ("key1", { msgid := "key1", msgstr := [some "Key 1"] })])]⟩
      = some [("key1", { message := "Key 1" })] := by
  have h := wei18n_key_coverage.1
    [("key1", { message := "Key 1" }), ("key2", { message := "Key 2" })]
    "en-US" none (by decide)
  exact ⟨h.1, h.2.1, h.2.2 "key1" (by decide),
    wei18n_key_coverage.2
      ⟨"utf-8", [],
        [("", [("", { msgid := "", msgstr := [] }),
               ("key1", { msgid := "key1", msgstr := [some "Key 1"] })])]⟩
      [("", { msgid := "", msgstr := [] }),
       ("key1", { msgid := "key1", msgstr := [some "Key 1"] })]
      rfl (by decide)⟩

/-- C7: if the source has a key `k` that is absent from the target
`json.data`, the emitted entry for `k` has `msgstr` equal to the
single-element list holding the missing lookup (`undefined`, modelled as
`none`) — not an empty string; and under the precondition that every source
key also exists in the target, every msgstr element of every emitted entry
is a defined string. -/
theorem rainbeam_missing_source_key (json source : RainbeamI18nData)
    (locale : String) (hnd : (source.data.map Prod.fst).Nodup) :
    (∀ kv ∈ source.data, recordGet json.data kv.1 = none →
      recordGet
          ((recordGet (rainbeamToPo json locale (some source)).translations "").getD [])
          kv.1
        = some { msgctxt := some kv.1, msgid := kv.2, msgstr := [none] })
    ∧ ((∀ k ∈ source.data.map Prod.fst, (recordGet json.data k).isSome = true) →
      ∀ ctx ∈ (rainbeamToPo json locale (some source)).translations,
        ∀ kv ∈ ctx.2, ∀ x ∈ kv.2.msgstr, x.isSome = true) := by
  have hshape := (rainbeamToPo_entries json locale).2 source hnd
  constructor
  · intro kv hkv hmiss
    have houter :
        (recordGet (rainbeamToPo json locale (some source)).translations "").getD []
          = source.data.map (fun kv => (kv.1,
              ({ msgctxt := some kv.1, msgid := kv.2,
                 msgstr := [recordGet json.data kv.1] } : GettextParserDataEntry))) := by
      rw [hshape]; rfl
    rw [houter]
    have hkeys :
        ((source.data.map (fun kv => (kv.1,
            ({ msgctxt := some kv.1, msgid := kv.2,
               msgstr := [recordGet json.data kv.1] } : GettextParserDataEntry)))).map
          Prod.fst).Nodup := by
      rw [List.map_map]; exact hnd
    have hmem := List.mem_map_of_mem
      (fun kv => (kv.1,
        ({ msgctxt := some kv.1, msgid := kv.2,
           msgstr := [recordGet json.data kv.1] } : GettextParserDataEntry))) hkv
    have hg := recordGet_of_nodup _ hkeys _ hmem
    have hg' :
        recordGet
            (source.data.map (fun kv => (kv.1,
              ({ msgctxt := some kv.1, msgid := kv.2,
                 msgstr := [recordGet json.data kv.1] } : GettextParserDataEntry))))
            kv.1
          = some ({ msgctxt := some kv.1, msgid := kv.2,
                    msgstr := [recordGet json.data kv.1] } : GettextParserDataEntry) := hg
    rw [hg', hmiss]
  · intro hall ctx hctx kv hkv x hx
    rw [hshape] at hctx
    have hctx' : ctx = ("", source.data.map (fun kv => (kv.1,
        ({ msgctxt := some kv.1, msgid := kv.2,
           msgstr := [recordGet json.data kv.1] } : GettextParserDataEntry)))) :=
      List.mem_singleton.mp hctx
    rw [hctx'] at hkv
    rcases List.mem_map.mp hkv with ⟨q, hq, rfl⟩
    simp only [List.mem_singleton] at hx
    rw [hx]
    exact hall q.1 (List.mem_map_of_mem Prod.fst hq)

/-- C7 witness: with empty target data and source `{k: "S"}`, the emitted
entry for `k` carries `msgstr = [undefined]`; with target `{k: "T"}` instead,
the pre-filled element `some "T"` is defined. -/
theorem rainbeam_missing_source_key_witness :
    recordGet
        ((recordGet (rainbeamToPo ⟨"t", "1", []⟩ "en"
          (some ⟨"s", "1", [("k", "S")]⟩)).translations "").getD [])
        "k"
      = some { msgctxt := some "k", msgid := "S", msgstr := [none] }
    ∧ (some "T" : Option String).isSome = true :=
  ⟨(rainbeam_missing_source_key ⟨"t", "1", []⟩ ⟨"s", "1", [("k", "S")]⟩ "en"
      (by decide)).1 ("k", "S") (by decide) rfl,
   (rainbeam_missing_source_key ⟨"t", "1", [("k", "T")]⟩ ⟨"s", "1", [("k", "S")]⟩ "en"
      (by decide)).2 (by decide)
     ("", [("k", { msgctxt := some "k", msgid := "S", msgstr := [some "T"] })])
     (by decide)
     ("k", { msgctxt := some "k", msgid := "S", msgstr := [some "T"] })
     (by decide) (some "T") (by decide)⟩

/-- C8: `wei18nToPo` produces identical output for any two WebExt maps that
differ only in the `placeholders` fields of their entries (the field is not
read by the conversion), and `wei18nToJson` never emits a `placeholders`
field in any output entry. -/
theorem wei18n_placeholders_invisible :
    (∀ (m₁ m₂ : Wei18n) (locale : String) (refs : Option (List Wei18n)),
      erasePlaceholders m₁ = erasePlaceholders m₂ →
      wei18nToPo m₁ locale refs = wei18nToPo m₂ locale refs)
    ∧ ∀ (d : GettextParserData) (w : Wei18n),
        wei18nToJson d = some w → ∀ kv ∈ w, kv.2.placeholders = none := by
  constructor
  · intro m₁ m₂ locale refs h
    rw [← wei18nToPo_erasePlaceholders m₁ locale refs, h,
      wei18nToPo_erasePlaceholders m₂ locale refs]
  · intro d w hw kv hkv
    rcases hobj : recordGet d.translations "" with _ | objects
    · rw [show wei18nToJson d = none by simp [wei18nToJson, hobj]] at hw
      exact absurd hw (by simp)
    · have hsome : wei18nToJson d
          = some (objects.foldl
              (fun res kv =>
                if kv.1 = "" then res
                else recordSet res kv.1
                  ({ message := msgstrJoin kv.2.msgstr,
                     description := kv.2.comments.bind GettextComments.extracted }
                    : Wei18nEntry))
              []) := by
        simp [wei18nToJson, hobj]
      rw [hsome] at hw
      have heq := (Option.some.injEq _ _).mp hw
      rw [← heq] at hkv
      exact foldl_recordSet_preserve (fun e => e.placeholders = none)
        (fun kv => kv.1)
        (fun kv => ({ message := msgstrJoin kv.2.msgstr,
                      description := kv.2.comments.bind GettextComments.extracted }
                    : Wei18nEntry))
        (fun _ => rfl) objects [] (by simp) kv hkv

/-- C8 witness: adding a placeholder to an entry leaves the PO conversion
unchanged, and a PO→JSON conversion emits an entry without placeholders. -/
theorem wei18n_placeholders_invisible_witness :
    wei18nToPo
        [("k", { message := "m",
                 placeholders := some [("p", { content := "c" })] })] "en" none
      = wei18nToPo [("k", { message := "m" })] "en" none
    ∧ (("k", ({ message := "Key" } : Wei18nEntry)) : String × Wei18nEntry).2.placeholders
        = none :=
  ⟨wei18n_placeholders_invisible.1
      [("k", { message := "m", placeholders := some [("p", { content := "c" })] })]
      [("k", { message := "m" })] "en" none (by decide),
   wei18n_placeholders_invisible.2
      ⟨"utf-8", [], [("", [("k", { msgid := "k", msgstr := [some "Key"] })])]⟩
      [("k", { message := "Key" })] rfl
      ("k", { message := "Key" }) (by decide)⟩
